import Mathlib

/-!
# Verification of the viewport virtualization engine of Spatial-Directory-Explorer

This file gives a shallow embedding, in Lean 4, of the core of the
`js/virtualizer.js` and `js/performance.js` modules of the
Spatial-Directory-Explorer repository: the item store, the binned spatial
index, the handle (element) pool, the render scheduler, and the
level-of-detail selector.  JavaScript numbers are modelled as rationals
(`ℚ`), JS `Map`s keyed by strings or bin keys as functions into `Option`,
JS `Set`s as `Finset`, and JS arrays used as stacks as Lean lists.
Theorems below settle the frozen claims about this engine.
-/

namespace SpatialExplorer

/-- An item record, as stored in `this.itemData` by the virtualizer
(`path` is the unique key; `type` distinguishes directories from files;
`position` is supplied by the external layout). -/
structure Item where
  path : String
  name : String
  type : String
  posX : ℚ
  posY : ℚ
deriving DecidableEq, Repr

/-- The configuration options of `VirtualizedRenderer` that the embedded
functions read (`this.options` and `this.spatialIndex.binSize`). -/
structure Options where
  itemW : ℚ
  itemH : ℚ
  renderMargin : ℚ
  binSize : ℚ
  lodLevels : ℕ
  lodThresholds : List ℚ
  detailDistanceThreshold : ℚ
deriving DecidableEq, Repr

/-- The default option values from the constructor of `VirtualizedRenderer`:
itemSize 100×120, renderMargin 300, binSize 500, lodLevels 3,
lodThresholds [1.0, 0.5, 0.2], detailDistanceThreshold 300. -/
def defaultOptions : Options :=
  ⟨100, 120, 300, 500, 3, [1, 1/2, 1/5], 300⟩

/-- The viewport transform `this.transform` (scale, translateX, translateY). -/
structure Transform where
  scale : ℚ
  translateX : ℚ
  translateY : ℚ
deriving DecidableEq, Repr

/-- Container pixel size, from `this.viewportRect` (`width`/`height`). -/
structure Viewport where
  width : ℚ
  height : ℚ
deriving DecidableEq, Repr

/-- A content-space rectangle with the derived `width`/`height` fields, as
returned by `getVisibleContentRect`. -/
structure ContentRect where
  left : ℚ
  top : ℚ
  right : ℚ
  bottom : ℚ
  width : ℚ
  height : ℚ
deriving DecidableEq, Repr

/-- A plain rectangle (the margin-expanded rects built inside
`isItemVisible` and `queryVisibleItemsFromSpatialIndex` carry only
`left`/`top`/`right`/`bottom`). -/
structure Rect where
  left : ℚ
  top : ℚ
  right : ℚ
  bottom : ℚ
deriving DecidableEq, Repr

/-- `getVisibleContentRect`: converts the viewport rect to content
coordinates using the current transform. -/
def getVisibleContentRect (tr : Transform) (vp : Viewport) : ContentRect :=
  { left := -tr.translateX / tr.scale
    top := -tr.translateY / tr.scale
    right := -tr.translateX / tr.scale + vp.width / tr.scale
    bottom := -tr.translateY / tr.scale + vp.height / tr.scale
    width := vp.width / tr.scale
    height := vp.height / tr.scale }

/-- The margin expansion applied (identically) by `isItemVisible` and
`queryVisibleItemsFromSpatialIndex`: grow the visible rect by `margin`
on all four sides. -/
def expandRect (r : ContentRect) (margin : ℚ) : Rect :=
  ⟨r.left - margin, r.top - margin, r.right + margin, r.bottom + margin⟩

/-- `isItemVisible(item, rect)`: expands `rect` by `renderMargin / scale`
and tests bounding-box overlap, returning the JS boolean
`!(itemRight < left || x > right || itemBottom < top || y > bottom)`. -/
def isItemVisible (opts : Options) (tr : Transform) (rect : ContentRect)
    (item : Item) : Bool :=
  let margin := opts.renderMargin / tr.scale
  let visibleRect := expandRect rect margin
  let itemRight := item.posX + opts.itemW
  let itemBottom := item.posY + opts.itemH
  !(decide (itemRight < visibleRect.left) || decide (item.posX > visibleRect.right) ||
    decide (itemBottom < visibleRect.top) || decide (item.posY > visibleRect.bottom))

/-- The integer range `[a, a+1, …, b]` traversed by a JS loop
`for (let x = a; x <= b; x++)` (empty when `b < a`). -/
def intRange (a b : ℤ) : List ℤ :=
  (List.range (b - a + 1).toNat).map (fun i : ℕ => a + (i : ℤ))

/-- The bin keys covered by an item, exactly as iterated by
`buildSpatialIndex` / `updateItemInSpatialIndex`:
x from `Math.floor(x / binSize)` to `Math.ceil((x + width) / binSize)`
inclusive (outer loop), y likewise (inner loop); the JS string key
`"x,y"` injectively encodes the integer pair, modelled as `ℤ × ℤ`. -/
def binKeysFor (opts : Options) (item : Item) : List (ℤ × ℤ) :=
  let startBinX := ⌊item.posX / opts.binSize⌋
  let startBinY := ⌊item.posY / opts.binSize⌋
  let endBinX := ⌈(item.posX + opts.itemW) / opts.binSize⌉
  let endBinY := ⌈(item.posY + opts.itemH) / opts.binSize⌉
  (intRange startBinX endBinX) ×ˢ (intRange startBinY endBinY)

/-- The spatial index `this.spatialIndex`: `bins` maps a bin key to the
set of item paths overlapping it (JS `Map` of `Set`s), `items` maps an
item path to the recorded list of bin keys it occupies. -/
structure SpatialIndex where
  bins : ℤ × ℤ → Option (Finset String)
  items : String → Option (List (ℤ × ℤ))

/-- The cleared index (`bins.clear(); items.clear()`). -/
def emptyIndex : SpatialIndex := ⟨fun _ => none, fun _ => none⟩

/-- One step of the bin-insertion loop body:
`if (!bins.has(binKey)) bins.set(binKey, new Set()); bins.get(binKey).add(path)`. -/
def addToBin (path : String) (bins : ℤ × ℤ → Option (Finset String)) (k : ℤ × ℤ) :
    ℤ × ℤ → Option (Finset String) :=
  fun q => if q = k then some (insert path ((bins k).getD ∅)) else bins q

/-- One step of the bin-removal loop body (from `updateItemInSpatialIndex`
and `removeItem`): `const bin = bins.get(binKey); if (bin) { bin.delete(path);
if (bin.size === 0) bins.delete(binKey); }`. -/
def removeFromBin (path : String) (bins : ℤ × ℤ → Option (Finset String)) (k : ℤ × ℤ) :
    ℤ × ℤ → Option (Finset String) :=
  match bins k with
  | none => bins
  | some s =>
    let s2 := s.erase path
    if s2 = ∅ then fun q => if q = k then none else bins q
    else fun q => if q = k then some s2 else bins q

/-- The per-item body of `buildSpatialIndex`: add the item's path to every
bin it overlaps and record the covered key list against the path. -/
def insertItemBins (opts : Options) (idx : SpatialIndex) (item : Item) : SpatialIndex :=
  let itemBins := binKeysFor opts item
  { bins := itemBins.foldl (addToBin item.path) idx.bins
    items := fun p => if p = item.path then some itemBins else idx.items p }

/-- `buildSpatialIndex`: clears the index, then inserts every item of the
store (iterated in insertion order). -/
def buildSpatialIndex (opts : Options) (items : List Item) : SpatialIndex :=
  items.foldl (insertItemBins opts) emptyIndex

/-- The item store `this.itemData` as rebuilt by `setItems`:
`items.forEach(item => itemData.set(item.path, item))` — a JS `Map`,
modelled as a lookup function (later duplicates win, as `Map.set` does). -/
def storeOf (items : List Item) : String → Option Item :=
  items.foldl (fun m it => fun q => if q = it.path then some it else m q) (fun _ => none)

/-- The bin-key range scanned by `queryVisibleItemsFromSpatialIndex`:
the visible rect is expanded by `renderMargin / scale`, then x runs from
`Math.floor(left / binSize)` to `Math.ceil(right / binSize)` inclusive
(outer loop), y likewise (inner loop). -/
def queryBinKeys (opts : Options) (tr : Transform) (rect : ContentRect) :
    List (ℤ × ℤ) :=
  let margin := opts.renderMargin / tr.scale
  let expandedRect := expandRect rect margin
  let startBinX := ⌊expandedRect.left / opts.binSize⌋
  let startBinY := ⌊expandedRect.top / opts.binSize⌋
  let endBinX := ⌈expandedRect.right / opts.binSize⌉
  let endBinY := ⌈expandedRect.bottom / opts.binSize⌉
  (intRange startBinX endBinX) ×ˢ (intRange startBinY endBinY)

/-- Membership of a path in the result set of
`queryVisibleItemsFromSpatialIndex(visibleRect)`: the union of the bins in
the scanned range, restricted to paths resolving in `itemData`
(`const item = this.itemData.get(itemPath); if (item) visibleItems.add(item)`). -/
def querySpatialContains (opts : Options) (tr : Transform) (rect : ContentRect)
    (idx : SpatialIndex) (store : String → Option Item) (p : String) : Prop :=
  (store p).isSome = true ∧ ∃ k ∈ queryBinKeys opts tr rect, p ∈ ((idx.bins k).getD ∅)

/-- The path set produced by the brute-force fallback of
`getItemsInViewport`: a linear scan over `itemData` keeping the items for
which `isItemVisible(item, visibleRect)` is true. -/
def linearScanPaths (opts : Options) (tr : Transform) (rect : ContentRect)
    (items : List Item) : List String :=
  (items.filter (fun it => isItemVisible opts tr rect it)).map Item.path

/-- Decides the JS comparison `Math.sqrt d2 < t` without leaving `ℚ`:
for `d2 ≥ 0` (always the case for a sum of two squares),
`√d2 < t ↔ 0 ≤ t ∧ d2 < t²`.  This is the exact square-free embedding of
the square-root comparison used by `getDetailLevel`. -/
def sqrtLtB (d2 t : ℚ) : Bool :=
  decide (0 ≤ t) && decide (d2 < t ^ 2)

/-- The threshold loop of `getDetailLevel`:
`for (let i = 0; i < lodThresholds.length; i++) if (scale >= lodThresholds[i]) return i + 1`
— `acc` carries the index offset; `none` means the loop fell through. -/
def lodScan : List ℚ → ℚ → ℕ → Option ℕ
  | [], _, _ => none
  | t :: ts, scale, acc => if t ≤ scale then some (acc + 1) else lodScan ts scale (acc + 1)

/-- The squared Euclidean distance `dx*dx + dy*dy` from the item center to
the viewport-rectangle center, as computed in the distance fallback of
`getDetailLevel` (the code takes `Math.sqrt` of this value; comparisons
against it are embedded via `sqrtLtB`). -/
def itemDistSq (opts : Options) (tr : Transform) (vp : Viewport) (item : Item) : ℚ :=
  let visibleRect := getVisibleContentRect tr vp
  let viewportCenterX := visibleRect.left + visibleRect.width / 2
  let viewportCenterY := visibleRect.top + visibleRect.height / 2
  let itemCenterX := item.posX + opts.itemW / 2
  let itemCenterY := item.posY + opts.itemH / 2
  let dx := itemCenterX - viewportCenterX
  let dy := itemCenterY - viewportCenterY
  dx * dx + dy * dy

/-- `getDetailLevel(item)`: full detail if LOD is disabled; otherwise the
1-based index of the first threshold the scale meets or exceeds; otherwise
the distance fallback with `threshold = detailDistanceThreshold / scale`:
`distance < threshold → 1`, `distance < threshold * 2 → 2`, else `3`. -/
def getDetailLevel (opts : Options) (tr : Transform) (vp : Viewport) (item : Item) : ℕ :=
  if opts.lodLevels = 1 then 1
  else
    match lodScan opts.lodThresholds tr.scale 0 with
    | some level => level
    | none =>
      let distSq := itemDistSq opts tr vp item
      let threshold := opts.detailDistanceThreshold / tr.scale
      if sqrtLtB distSq threshold then 1
      else if sqrtLtB distSq (threshold * 2) then 2
      else 3

/-- The distance rule in the words of claim C5: the Euclidean distance,
*divided by the scale* to normalize, classified against the configured base
distance threshold (below it → finest, below twice it → middle, else
coarsest).  For `scale > 0`, `√d2 / scale = √(d2 / scale²)`, so the test is
embedded as `sqrtLtB (d2 / scale²)`. -/
def claimDistanceBandLevel (d2 scale base : ℚ) : ℕ :=
  if sqrtLtB (d2 / scale ^ 2) base then 1
  else if sqrtLtB (d2 / scale ^ 2) (base * 2) then 2
  else 3

/-- The amended distance rule: the distance is compared against the base
threshold *divided by the scale* (equivalently, distance × scale against
the base).  For `scale ≥ 0`, `√d2 · scale = √(d2 · scale²)`, so the test
is embedded as `sqrtLtB (d2 * scale²)`. -/
def specDistanceBandLevel (d2 scale base : ℚ) : ℕ :=
  if sqrtLtB (d2 * scale ^ 2) base then 1
  else if sqrtLtB (d2 * scale ^ 2) (base * 2) then 2
  else 3

/-- A Renderable Handle: the DOM element produced by
`createElementTemplate` with the state that the virtualizer reads and
writes.  `clickListeners` (and the double-click/context-menu analogues)
record, per bound listener closure, the `path` of the item captured by
that closure — firing the event dispatches one callback per entry,
carrying the captured item. -/
structure Element where
  kindClass : String
  displayNone : Bool
  focused : Bool
  translate : Option (ℚ × ℚ)
  dataPath : Option String
  dataName : Option String
  detailLevel : Option ℕ
  dataHasListeners : Bool
  clickListeners : List String
  dblclickListeners : List String
  contextmenuListeners : List String

/-- `createElementTemplate(type)`: a hidden element of the given kind with
icon and empty name, no data attributes and no listeners. -/
def createElementTemplate (type : String) : Element :=
  ⟨type, true, false, none, none, none, none, false, [], [], []⟩

/-- The effect of the pool's reset function `resetElement(el)` *on its
argument*: hide it, clear its transform, drop the `focused` class and the
`data-path` attribute.  The subsequent clone-and-replace step detaches
`el` from the DOM and returns a listener-free clone — but it removes
neither `el`'s own event listeners nor its `data-has-listeners`
attribute, and `release` discards the return value of the reset function
(see `poolRelease`), so the element that re-enters the pool is `el`
itself with listeners intact. -/
def resetElementInPlace (el : Element) : Element :=
  { el with displayNone := true, translate := none, focused := false, dataPath := none }

/-- `updateElement(element, item)`: position, data attributes, detail
level, icon and name are (re)written; interaction listeners for click,
double-click and context-menu — each capturing `item` in its closure —
are added only when `element.dataset.hasListeners` is unset, after which
the flag is set. -/
def updateElement (opts : Options) (tr : Transform) (vp : Viewport)
    (el : Element) (item : Item) : Element :=
  let el1 := { el with
    translate := some (item.posX, item.posY)
    dataPath := some item.path
    dataName := some item.name
    detailLevel := some (getDetailLevel opts tr vp item) }
  if el1.dataHasListeners then el1
  else { el1 with
    clickListeners := el1.clickListeners ++ [item.path]
    dblclickListeners := el1.dblclickListeners ++ [item.path]
    contextmenuListeners := el1.contextmenuListeners ++ [item.path]
    dataHasListeners := true }

/-- The options of `Performance.createObjectPool` (defaults
`initialSize 0, maxSize 100, growthRate 5`). -/
structure PoolSettings where
  initialSize : ℕ
  maxSize : ℕ
  growthRate : ℕ
deriving DecidableEq, Repr

/-- The settings the virtualizer passes for its element pools:
`{ initialSize: 10, maxSize: recycleThreshold }` with `recycleThreshold`
defaulting to 100, and the pool's default `growthRate 5`. -/
def filePoolSettings : PoolSettings := ⟨10, 100, 5⟩

/-- The state of one object pool: the idle array `pool`, plus a counter of
factory invocations so far, used to model JS object identity — the
factory of the model is a function `ℕ → α` from the creation index, so
distinct invocations of a faithful factory model yield distinguishable
handles. -/
structure PoolState (α : Type) where
  pool : List α
  created : ℕ

/-- Pool construction: `for (let i = 0; i < initialSize; i++) pool.push(createFunc())`
(note: *not* clamped by `maxSize`). -/
def mkPool {α : Type} (create : ℕ → α) (s : PoolSettings) : PoolState α :=
  ⟨(List.range s.initialSize).map create, s.initialSize⟩

/-- `get()`: pop the last idle element if any; otherwise create
`newItems = min(growthRate, maxSize - pool.length)` objects, pushing the
first `newItems - 1` into the pool and returning one more fresh object. -/
def poolGet {α : Type} (create : ℕ → α) (s : PoolSettings) (st : PoolState α) :
    α × PoolState α :=
  match st.pool.getLast? with
  | some x => (x, ⟨st.pool.dropLast, st.created⟩)
  | none =>
    let newItems := min s.growthRate (s.maxSize - st.pool.length)
    let pushed := (List.range (newItems - 1)).map (fun i => create (st.created + i))
    (create (st.created + (newItems - 1)),
      ⟨st.pool ++ pushed, st.created + (newItems - 1) + 1⟩)

/-- `release(obj)`: run the reset function, then push only while under
`maxSize`, else drop.  JS calls `resetFunc(obj)` for its side effect on
`obj` and pushes `obj` itself — the *return value* of the reset function
is discarded — so `reset` here is the in-place effect of the reset
function on its argument (see `resetElementInPlace`). -/
def poolRelease {α : Type} (reset : α → α) (s : PoolSettings) (st : PoolState α)
    (x : α) : PoolState α :=
  let x2 := reset x
  if st.pool.length < s.maxSize then ⟨st.pool ++ [x2], st.created⟩ else st

/-- `prewarm(size)`: top the pool up to `min(size, maxSize)` elements;
no-op when already at or above the target. -/
def poolPrewarm {α : Type} (create : ℕ → α) (s : PoolSettings) (st : PoolState α)
    (n : ℕ) : PoolState α :=
  let targetSize := min n s.maxSize
  if targetSize ≤ st.pool.length then st
  else
    ⟨st.pool ++ (List.range (targetSize - st.pool.length)).map
        (fun i => create (st.created + i)),
      st.created + (targetSize - st.pool.length)⟩

/-- The pool operations of claim C4 (after construction):
`get`, `release` of a given handle, `prewarm` to a given size. -/
inductive PoolOp where
  | get : PoolOp
  | release : ℕ → PoolOp
  | prewarm : ℕ → PoolOp
deriving DecidableEq, Repr

/-- A pool of bare handle identities: the factory returns the creation
index itself and the reset function does nothing to the identity. -/
def natPoolStep (s : PoolSettings) (st : PoolState ℕ) : PoolOp → PoolState ℕ
  | .get => (poolGet (fun i => i) s st).2
  | .release h => poolRelease id s st h
  | .prewarm n => poolPrewarm (fun i => i) s st n

/-- Run a sequence of pool operations. -/
def natPoolRun (s : PoolSettings) (st : PoolState ℕ) (ops : List PoolOp) : PoolState ℕ :=
  ops.foldl (natPoolStep s) st

/-- The handles returned by the `get` operations along a run. -/
def natPoolTrace (s : PoolSettings) (st : PoolState ℕ) : List PoolOp → List ℕ
  | [] => []
  | op :: ops =>
    match op with
    | .get => (poolGet (fun i => i) s st).1 :: natPoolTrace s (natPoolStep s st op) ops
    | _ => natPoolTrace s (natPoolStep s st op) ops

/-- The handles passed to `release` operations in a sequence. -/
def releasedHandles : List PoolOp → List ℕ
  | [] => []
  | .release h :: ops => h :: releasedHandles ops
  | _ :: ops => releasedHandles ops

/-- A handle held outside the pool: not in the idle array, and already
created (its identity is below the creation counter, so no future factory
call can coincide with it). -/
def HandleFresh (h : ℕ) (st : PoolState ℕ) : Prop :=
  h ∉ st.pool ∧ h < st.created

/-- The recycling scenario of claim C2, threaded through the file pool:
a template is obtained from the pool, bound to `itemA` by `updateElement`
(attaching its interaction listeners), released back to the pool (which
runs `resetElement` on it), obtained again, and bound to `itemB`. -/
def recycledElementAfterRebind (opts : Options) (tr : Transform) (vp : Viewport)
    (itemA itemB : Item) : Element :=
  let create := fun (_ : ℕ) => createElementTemplate "file"
  let p0 := mkPool create filePoolSettings
  let g1 := poolGet create filePoolSettings p0
  let e1 := updateElement opts tr vp g1.1 itemA
  let p2 := poolRelease resetElementInPlace filePoolSettings g1.2 e1
  let g2 := poolGet create filePoolSettings p2
  updateElement opts tr vp g2.1 itemB

/-- The scheduler-relevant state of the virtualizer: the `renderScheduled`
pending flag, the `enabled` flag toggled by `pauseRendering`/`resumeRendering`,
the `isRendering` single-flight guard, the number of animation-frame
callbacks currently registered and not yet run (`rafQueued`), and a count
of completed render passes (`rendersRun`). -/
structure SchedState where
  renderScheduled : Bool
  enabled : Bool
  isRendering : Bool
  rafQueued : ℕ
  rendersRun : ℕ
deriving DecidableEq, Repr

/-- `scheduleRender()`: `if (!this.renderScheduled && this.enabled) { this.renderScheduled = true; requestAnimationFrame(...) }`
— registering one animation-frame callback. -/
def scheduleRender (s : SchedState) : SchedState :=
  if !s.renderScheduled && s.enabled then
    { s with renderScheduled := true, rafQueued := s.rafQueued + 1 }
  else s

/-- `render()`: returns immediately when already rendering or disabled;
otherwise one pass runs (`isRendering` is set for its duration and cleared
in the `finally` block — the net effect on this state is one completed
pass).  This variant models a pass whose body issues no further
`scheduleRender` call. -/
def render (s : SchedState) : SchedState :=
  if s.isRendering || !s.enabled then s
  else { s with rendersRun := s.rendersRun + 1 }

/-- The animation-frame callback registered by `scheduleRender`:
`() => { this.render(); this.renderScheduled = false; }` — it consumes
the registered callback, runs the pass, and only *afterwards* clears the
pending flag. -/
def runTick (s : SchedState) : SchedState :=
  if s.rafQueued = 0 then s
  else
    let s1 := render { s with rafQueued := s.rafQueued - 1 }
    { s1 with renderScheduled := false }

/-- A render pass whose body calls `this.scheduleRender()` once (e.g. an
ongoing LOD transition requesting a follow-up pass): `isRendering` is true
while the body — including that call — executes, and is cleared in the
`finally` block. -/
def renderWithReschedule (s : SchedState) : SchedState :=
  if s.isRendering || !s.enabled then s
  else
    let s1 := { s with isRendering := true, rendersRun := s.rendersRun + 1 }
    let s2 := scheduleRender s1
    { s2 with isRendering := false }

/-- The animation-frame callback when the pass re-requests a render:
run the pass (which calls `scheduleRender` from inside), then clear the
pending flag. -/
def runTickWithReschedule (s : SchedState) : SchedState :=
  if s.rafQueued = 0 then s
  else
    let s1 := renderWithReschedule { s with rafQueued := s.rafQueued - 1 }
    { s1 with renderScheduled := false }

/-- The data state of the virtualizer that `addItem`/`removeItem`/
`setItems`/`setTransform`/`focusOnItem` mutate: the item store
`this.itemData`, the spatial index, the visible set `this.visibleItems`
(path → active handle, handles modelled by identity), and the transform.
Handle acquisition in `renderItem` is abstracted to a fresh identity drawn
from `nextElementId`; the pools, observers and scheduler live outside this
record (rendering side effects such as `scheduleRender()` touch
`SchedState`, and `highlightItem` only toggles CSS classes on elements). -/
structure EngineState where
  itemData : String → Option Item
  index : SpatialIndex
  visibleItems : String → Option ℕ
  nextElementId : ℕ
  transform : Transform

/-- `updateItemInSpatialIndex(item)`: if the path has recorded bins,
remove it from each (deleting bins that become empty); then add the path
to every bin of its current box and record the new key list. -/
def updateItemInSpatialIndex (opts : Options) (idx : SpatialIndex) (item : Item) :
    SpatialIndex :=
  let idx1 : SpatialIndex :=
    match idx.items item.path with
    | some oldBins =>
      { bins := oldBins.foldl (removeFromBin item.path) idx.bins, items := idx.items }
    | none => idx
  let itemBins := binKeysFor opts item
  { bins := itemBins.foldl (addToBin item.path) idx1.bins
    items := fun p => if p = item.path then some itemBins else idx1.items p }

/-- `renderItem(item)`: acquire a handle from the pool (abstracted to the
next fresh identity), update and show it, and enter it into the visible
set. -/
def renderItem (st : EngineState) (item : Item) : EngineState :=
  { st with
    visibleItems := fun p =>
      if p = item.path then some st.nextElementId else st.visibleItems p
    nextElementId := st.nextElementId + 1 }

/-- `addItem(item)`: store the record, index it, and render it immediately
when visible in the current content rect. -/
def addItem (opts : Options) (vp : Viewport) (st : EngineState) (item : Item) :
    EngineState :=
  let st1 := { st with
    itemData := fun p => if p = item.path then some item else st.itemData p }
  let st2 := { st1 with index := updateItemInSpatialIndex opts st1.index item }
  if isItemVisible opts st.transform (getVisibleContentRect st.transform vp) item then
    renderItem st2 item
  else st2

/-- `removeItem(itemPath)`: delete from the store; remove the path from
each recorded bin, deleting bins that become empty, and clear the record;
recycle and drop the visible element if present. -/
def removeItem (st : EngineState) (path : String) : EngineState :=
  let st1 := { st with itemData := fun p => if p = path then none else st.itemData p }
  let st2 :=
    match st1.index.items path with
    | some bins =>
      { st1 with index :=
        { bins := bins.foldl (removeFromBin path) st1.index.bins
          items := fun p => if p = path then none else st1.index.items p } }
    | none => st1
  match st2.visibleItems path with
  | some _ =>
    { st2 with visibleItems := fun p => if p = path then none else st2.visibleItems p }
  | none => st2

/-- The JS expression `scale || this.transform.scale` used by `setItems`
and `focusOnItem`: an omitted argument is `undefined` (falsy), and the
number `0` is falsy as well, so both fall back to the current scale. -/
def jsOrScale (scale : Option ℚ) (current : ℚ) : ℚ :=
  match scale with
  | none => current
  | some v => if v = 0 then current else v

/-- `setTransform({scale, translateX, translateY})`: patch only the fields
that are not `undefined` (this one checks `!== undefined`, not falsiness);
`applyTransform` and `scheduleRender` touch the DOM and the scheduler, not
this state. -/
def setTransform (st : EngineState) (scale translateX translateY : Option ℚ) :
    EngineState :=
  { st with transform :=
    ⟨scale.getD st.transform.scale, translateX.getD st.transform.translateX,
      translateY.getD st.transform.translateY⟩ }

/-- `setItems(items, scale)`: `this.transform.scale = scale || this.transform.scale`,
replace the store, rebuild the spatial index (and schedule a render —
scheduler state lives in `SchedState`). -/
def setItems (opts : Options) (st : EngineState) (items : List Item)
    (scale : Option ℚ) : EngineState :=
  let st1 := { st with transform :=
    { st.transform with scale := jsOrScale scale st.transform.scale } }
  { st1 with itemData := storeOf items, index := buildSpatialIndex opts items }

/-- `focusOnItem(itemPath, scale)`: warn and return when the path is
unknown; otherwise compute the transform centering the item at
`newScale = scale || this.transform.scale` and apply it via
`setTransform` (the final `highlightItem` only toggles CSS classes). -/
def focusOnItem (opts : Options) (vp : Viewport) (st : EngineState)
    (itemPath : String) (scale : Option ℚ) : EngineState :=
  match st.itemData itemPath with
  | none => st
  | some item =>
    let itemCenterX := item.posX + opts.itemW / 2
    let itemCenterY := item.posY + opts.itemH / 2
    let newScale := jsOrScale scale st.transform.scale
    let containerCenterX := vp.width / 2
    let containerCenterY := vp.height / 2
    let newTranslateX := containerCenterX - itemCenterX * newScale
    let newTranslateY := containerCenterY - itemCenterY * newScale
    setTransform st (some newScale) (some newTranslateX) (some newTranslateY)

/-- The engine data state right after construction: empty store, cleared
index, empty visible set, identity transform. -/
def emptyEngineState : EngineState :=
  ⟨fun _ => none, emptyIndex, fun _ => none, 0, ⟨1, 0, 0⟩⟩

/-- The error class claim C9 expects the constructor to throw. -/
inductive ConfigurationError where
  | containerNotFound : ConfigurationError
deriving DecidableEq, Repr

/-- What the constructor of `VirtualizedRenderer` has set up when it
returns. -/
structure ConstructedEngine where
  optionsApplied : Bool
  stateAllocated : Bool
  containerFound : Bool
  initialized : Bool
  observersAttached : Bool
  poolsCreated : Bool
  errorLogged : Bool
deriving DecidableEq, Repr

/-- The constructor: it always assigns `this.options` and allocates the
state maps and the spatial index; if the container selector resolves it
runs `initialize()` (observers, pools, `initialized = true`), otherwise it
logs `console.error('Virtualized Renderer: Container element not found')`
and returns normally.  No code path throws, so the embedding into `Except`
always returns `.ok`. -/
def constructEngine (containerExists : Bool) :
    Except ConfigurationError ConstructedEngine :=
  .ok
    { optionsApplied := true
      stateAllocated := true
      containerFound := containerExists
      initialized := containerExists
      observersAttached := containerExists
      poolsCreated := containerExists
      errorLogged := !containerExists }

theorem mem_intRange {a b k : ℤ} : k ∈ intRange a b ↔ a ≤ k ∧ k ≤ b := by
  unfold intRange
  simp only [List.mem_map, List.mem_range]
  constructor
  · rintro ⟨i, hi, rfl⟩
    omega
  · rintro ⟨h1, h2⟩
    exact ⟨(k - a).toNat, by omega, by omega⟩

theorem intRange_nodup (a b : ℤ) : (intRange a b).Nodup := by
  unfold intRange
  refine List.Nodup.map ?_ (List.nodup_range _)
  intro i j h
  simpa using h

theorem mem_binKeysFor {opts : Options} {item : Item} {k : ℤ × ℤ} :
    k ∈ binKeysFor opts item ↔
      ⌊item.posX / opts.binSize⌋ ≤ k.1 ∧
      k.1 ≤ ⌈(item.posX + opts.itemW) / opts.binSize⌉ ∧
      ⌊item.posY / opts.binSize⌋ ≤ k.2 ∧
      k.2 ≤ ⌈(item.posY + opts.itemH) / opts.binSize⌉ := by
  obtain ⟨kx, ky⟩ := k
  unfold binKeysFor
  simp only [List.mem_product, mem_intRange]
  tauto

theorem binKeysFor_nodup (opts : Options) (item : Item) :
    (binKeysFor opts item).Nodup :=
  List.Nodup.product (intRange_nodup _ _) (intRange_nodup _ _)

theorem mem_foldl_addToBin (path : String) (L : List (ℤ × ℤ))
    (B : ℤ × ℤ → Option (Finset String)) (q : String) (k : ℤ × ℤ) :
    q ∈ ((L.foldl (addToBin path) B k).getD ∅) ↔
      q ∈ ((B k).getD ∅) ∨ (q = path ∧ k ∈ L) := by
  induction L generalizing B with
  | nil => simp
  | cons a L ih =>
    rw [List.foldl_cons, ih]
    by_cases hk : k = a
    · subst hk
      simp [addToBin]
      tauto
    · simp only [addToBin, if_neg hk, List.mem_cons]
      tauto

theorem mem_foldl_insertItemBins (opts : Options) (items : List Item)
    (idx : SpatialIndex) (p : String) (k : ℤ × ℤ) :
    p ∈ (((items.foldl (insertItemBins opts) idx).bins k).getD ∅) ↔
      p ∈ ((idx.bins k).getD ∅) ∨ ∃ it ∈ items, it.path = p ∧ k ∈ binKeysFor opts it := by
  induction items generalizing idx with
  | nil => simp
  | cons it items ih =>
    rw [List.foldl_cons, ih]
    simp only [insertItemBins, mem_foldl_addToBin, List.mem_cons]
    constructor
    · rintro (((h | ⟨rfl, hk⟩) | ⟨u, hu, rfl, hk⟩))
      · exact Or.inl h
      · exact Or.inr ⟨it, Or.inl rfl, rfl, hk⟩
      · exact Or.inr ⟨u, Or.inr hu, rfl, hk⟩
    · rintro (h | ⟨u, (rfl | hu), rfl, hk⟩)
      · exact Or.inl (Or.inl h)
      · exact Or.inl (Or.inr ⟨rfl, hk⟩)
      · exact Or.inr ⟨u, hu, rfl, hk⟩

/-- A path is in a bin of the freshly built index iff some stored item with
that path covers the bin. -/
theorem mem_buildSpatialIndex_bins (opts : Options) (items : List Item)
    (p : String) (k : ℤ × ℤ) :
    p ∈ (((buildSpatialIndex opts items).bins k).getD ∅) ↔
      ∃ it ∈ items, it.path = p ∧ k ∈ binKeysFor opts it := by
  rw [buildSpatialIndex, mem_foldl_insertItemBins]
  simp [emptyIndex]

theorem storeOf_isSome_iff (items : List Item) (p : String) :
    (storeOf items p).isSome = true ↔ ∃ it ∈ items, it.path = p := by
  have key : ∀ (m : String → Option Item),
      ((items.foldl (fun m it => fun q => if q = it.path then some it else m q) m) p).isSome
        = true ↔ (m p).isSome = true ∨ ∃ it ∈ items, it.path = p := by
    induction items with
    | nil => simp
    | cons it items ih =>
      intro m
      rw [List.foldl_cons, ih]
      by_cases hp : p = it.path
      · subst hp
        simp
      · simp only [if_neg hp, List.mem_cons]
        constructor
        · rintro (h | ⟨u, hu, rfl⟩)
          · exact Or.inl h
          · exact Or.inr ⟨u, Or.inr hu, rfl⟩
        · rintro (h | ⟨u, (rfl | hu), rfl⟩)
          · exact Or.inl h
          · exact absurd rfl hp
          · exact Or.inr ⟨u, hu, rfl⟩
  rw [storeOf, key]
  simp

theorem mem_queryBinKeys {opts : Options} {tr : Transform} {rect : ContentRect}
    {k : ℤ × ℤ} :
    k ∈ queryBinKeys opts tr rect ↔
      ⌊(rect.left - opts.renderMargin / tr.scale) / opts.binSize⌋ ≤ k.1 ∧
      k.1 ≤ ⌈(rect.right + opts.renderMargin / tr.scale) / opts.binSize⌉ ∧
      ⌊(rect.top - opts.renderMargin / tr.scale) / opts.binSize⌋ ≤ k.2 ∧
      k.2 ≤ ⌈(rect.bottom + opts.renderMargin / tr.scale) / opts.binSize⌉ := by
  obtain ⟨kx, ky⟩ := k
  unfold queryBinKeys expandRect
  simp only [List.mem_product, mem_intRange]
  tauto

/-- Scenario-A helper: the bins covered by an item at (10,10) with the
default bin size 500 and item size 100×120. -/
theorem binKeysFor_item_10_10 :
    binKeysFor defaultOptions ⟨"a", "a", "file", 10, 10⟩ =
      [(0, 0), (0, 1), (1, 0), (1, 1)] := by
  have e1 : ⌊(10 : ℚ) / 500⌋ = 0 := by norm_num
  have e2 : ⌈((10 : ℚ) + 100) / 500⌉ = 1 := by norm_num [Int.ceil_eq_iff]
  have e3 : ⌈((10 : ℚ) + 120) / 500⌉ = 1 := by norm_num [Int.ceil_eq_iff]
  simp only [binKeysFor, defaultOptions]
  rw [e1, e2, e3]
  decide

/-- Scenario-A helper: the bins covered by an item at (480,10) with the
default bin size 500 and item size 100×120. -/
theorem binKeysFor_item_480_10 :
    binKeysFor defaultOptions ⟨"b", "b", "file", 480, 10⟩ =
      [(0, 0), (0, 1), (1, 0), (1, 1), (2, 0), (2, 1)] := by
  have e1 : ⌊(480 : ℚ) / 500⌋ = 0 := by norm_num [Int.floor_eq_iff]
  have e2 : ⌈((480 : ℚ) + 100) / 500⌉ = 2 := by norm_num [Int.ceil_eq_iff]
  have e3 : ⌊(10 : ℚ) / 500⌋ = 0 := by norm_num
  have e4 : ⌈((10 : ℚ) + 120) / 500⌉ = 1 := by norm_num [Int.ceil_eq_iff]
  simp only [binKeysFor, defaultOptions]
  rw [e1, e2, e3, e4]
  decide

/-- C3 (counterexample): with bin size 500 and item size 100×120, the item
at (10,10) does *not* occupy only bin (0,0), and the item at (480,10) does
*not* occupy only bins (0,0) and (1,0): the inclusive-ceiling end bin of
`buildSpatialIndex` adds a further bin row and column in each direction. -/
theorem c3_counterexample :
    ¬((binKeysFor defaultOptions ⟨"a", "a", "file", 10, 10⟩).toFinset =
        ({((0 : ℤ), (0 : ℤ))} : Finset (ℤ × ℤ))) ∧
    ¬((binKeysFor defaultOptions ⟨"b", "b", "file", 480, 10⟩).toFinset =
        ({((0 : ℤ), (0 : ℤ)), ((1 : ℤ), (0 : ℤ))} : Finset (ℤ × ℤ))) := by
  rw [binKeysFor_item_10_10, binKeysFor_item_480_10]
  decide

/-- C3 (amended): with bin size 500 and item size 100×120,
`buildSpatialIndex` places the item at (10,10) in exactly the four bins
(0,0), (0,1), (1,0), (1,1), and the item at (480,10) in exactly the six
bins (0,0), (0,1), (1,0), (1,1), (2,0), (2,1): the end bin index is the
inclusive ceiling of the far edge divided by the bin size. -/
theorem c3_amended :
    binKeysFor defaultOptions ⟨"a", "a", "file", 10, 10⟩ =
      [(0, 0), (0, 1), (1, 0), (1, 1)] ∧
    binKeysFor defaultOptions ⟨"b", "b", "file", 480, 10⟩ =
      [(0, 0), (0, 1), (1, 0), (1, 1), (2, 0), (2, 1)] ∧
    (buildSpatialIndex defaultOptions [⟨"a", "a", "file", 10, 10⟩]).items "a" =
      some [(0, 0), (0, 1), (1, 0), (1, 1)] ∧
    (buildSpatialIndex defaultOptions [⟨"b", "b", "file", 480, 10⟩]).items "b" =
      some [(0, 0), (0, 1), (1, 0), (1, 1), (2, 0), (2, 1)] := by
  refine ⟨binKeysFor_item_10_10, binKeysFor_item_480_10, ?_, ?_⟩
  · simp only [buildSpatialIndex, List.foldl_cons, List.foldl_nil, insertItemBins,
      binKeysFor_item_10_10]
    simp
  · simp only [buildSpatialIndex, List.foldl_cons, List.foldl_nil, insertItemBins,
      binKeysFor_item_480_10]
    simp

/-- C1 (counterexample): with bin size 500, item size 100×120, render
margin 0, scale 1 and viewport translated to content region
(900,900)–(999,999), the item at (400,400) fails the bounding-box overlap
test of the linear scan, yet the spatial-index query returns it, because
its inclusive-ceiling bin range reaches bin (1,1), which the query range
also covers.  The two result sets therefore differ. -/
theorem c1_counterexample :
    querySpatialContains ⟨100, 120, 0, 500, 3, [1, 1/2, 1/5], 300⟩ ⟨1, -900, -900⟩
      (getVisibleContentRect ⟨1, -900, -900⟩ ⟨99, 99⟩)
      (buildSpatialIndex ⟨100, 120, 0, 500, 3, [1, 1/2, 1/5], 300⟩
        [⟨"i", "i", "file", 400, 400⟩])
      (storeOf [⟨"i", "i", "file", 400, 400⟩]) "i" ∧
    "i" ∉ linearScanPaths ⟨100, 120, 0, 500, 3, [1, 1/2, 1/5], 300⟩ ⟨1, -900, -900⟩
      (getVisibleContentRect ⟨1, -900, -900⟩ ⟨99, 99⟩) [⟨"i", "i", "file", 400, 400⟩] := by
  constructor
  · refine ⟨?_, (1, 1), ?_, ?_⟩
    · rw [storeOf_isSome_iff]
      exact ⟨_, List.mem_singleton.mpr rfl, rfl⟩
    · rw [mem_queryBinKeys]
      refine ⟨?_, ?_, ?_, ?_⟩ <;>
        norm_num [getVisibleContentRect, Int.floor_le_iff, Int.one_le_ceil_iff]
    · rw [mem_buildSpatialIndex_bins]
      refine ⟨_, List.mem_singleton.mpr rfl, rfl, ?_⟩
      rw [mem_binKeysFor]
      refine ⟨?_, ?_, ?_, ?_⟩ <;>
        norm_num [Int.floor_le_iff, Int.one_le_ceil_iff]
  · simp only [linearScanPaths, isItemVisible, expandRect, getVisibleContentRect,
      List.filter, List.mem_map, List.mem_filter]
    norm_num

/-- C1 (amended): for every item set and every viewport rectangle derived
from a transform with positive scale, nonnegative render margin and
nonnegative viewport size, the spatial-index query result is a *superset*
of the brute-force linear scan: every path whose bounding box overlaps the
margin-expanded rectangle is returned by the bin query.  (The converse
fails: see the C1 counterexample — bins are coarse, and the query does not
re-filter by bounding box.) -/
theorem c1_amended (opts : Options) (tr : Transform) (vp : Viewport)
    (items : List Item) (p : String)
    (hscale : 0 < tr.scale) (hmargin : 0 ≤ opts.renderMargin)
    (hbin : 0 < opts.binSize) (hw : 0 ≤ opts.itemW) (hh : 0 ≤ opts.itemH)
    (hW : 0 ≤ vp.width) (hH : 0 ≤ vp.height)
    (hp : p ∈ linearScanPaths opts tr (getVisibleContentRect tr vp) items) :
    querySpatialContains opts tr (getVisibleContentRect tr vp)
      (buildSpatialIndex opts items) (storeOf items) p := by
  simp only [linearScanPaths, List.mem_map, List.mem_filter] at hp
  obtain ⟨it, ⟨hmem, hvis⟩, rfl⟩ := hp
  have hm : (0 : ℚ) ≤ opts.renderMargin / tr.scale := div_nonneg hmargin hscale.le
  simp only [isItemVisible, expandRect, Bool.not_eq_true', Bool.or_eq_false_iff,
    decide_eq_false_iff_not, not_lt] at hvis
  obtain ⟨⟨⟨h1, h2⟩, h3⟩, h4⟩ := hvis
  set r := getVisibleContentRect tr vp with hr
  set b := opts.binSize with hb2
  set m := opts.renderMargin / tr.scale with hm2
  have hLR : r.left - m ≤ r.right + m := by
    have : r.right = r.left + vp.width / tr.scale := by
      simp [hr, getVisibleContentRect]
    have hWs : 0 ≤ vp.width / tr.scale := div_nonneg hW hscale.le
    linarith
  have hTB : r.top - m ≤ r.bottom + m := by
    have : r.bottom = r.top + vp.height / tr.scale := by
      simp [hr, getVisibleContentRect]
    have hHs : 0 ≤ vp.height / tr.scale := div_nonneg hH hscale.le
    linarith
  refine ⟨(storeOf_isSome_iff items it.path).mpr ⟨it, hmem, rfl⟩,
    (max ⌊it.posX / b⌋ ⌊(r.left - m) / b⌋, max ⌊it.posY / b⌋ ⌊(r.top - m) / b⌋),
    mem_queryBinKeys.mpr ⟨?_, ?_, ?_, ?_⟩,
    (mem_buildSpatialIndex_bins opts items it.path _).mpr ⟨it, hmem, rfl, mem_binKeysFor.mpr ⟨?_, ?_, ?_, ?_⟩⟩⟩
  · exact le_max_right _ _
  · refine max_le ?_ ?_
    · exact le_trans (Int.floor_mono (div_le_div_of_nonneg_right h2 hbin.le)) (Int.floor_le_ceil _)
    · exact le_trans (Int.floor_mono (div_le_div_of_nonneg_right hLR hbin.le)) (Int.floor_le_ceil _)
  · exact le_max_right _ _
  · refine max_le ?_ ?_
    · exact le_trans (Int.floor_mono (div_le_div_of_nonneg_right h4 hbin.le)) (Int.floor_le_ceil _)
    · exact le_trans (Int.floor_mono (div_le_div_of_nonneg_right hTB hbin.le)) (Int.floor_le_ceil _)
  · exact le_max_left _ _
  · refine max_le ?_ ?_
    · have : it.posX ≤ it.posX + opts.itemW := by linarith
      exact le_trans (Int.floor_mono (div_le_div_of_nonneg_right this hbin.le)) (Int.floor_le_ceil _)
    · exact le_trans (Int.floor_mono (div_le_div_of_nonneg_right h1 hbin.le)) (Int.floor_le_ceil _)
  · exact le_max_left _ _
  · refine max_le ?_ ?_
    · have : it.posY ≤ it.posY + opts.itemH := by linarith
      exact le_trans (Int.floor_mono (div_le_div_of_nonneg_right this hbin.le)) (Int.floor_le_ceil _)
    · exact le_trans (Int.floor_mono (div_le_div_of_nonneg_right h3 hbin.le)) (Int.floor_le_ceil _)

/-- C1 (witness): Scenario B of the spec — viewport (0,0)–(800,600),
render margin 300, scale 1, item at (10,10) — instantiates the amended
superset theorem. -/
theorem c1_amended_witness :
    "a" ∈ linearScanPaths defaultOptions ⟨1, 0, 0⟩
      (getVisibleContentRect ⟨1, 0, 0⟩ ⟨800, 600⟩) [⟨"a", "a", "file", 10, 10⟩] ∧
    querySpatialContains defaultOptions ⟨1, 0, 0⟩
      (getVisibleContentRect ⟨1, 0, 0⟩ ⟨800, 600⟩)
      (buildSpatialIndex defaultOptions [⟨"a", "a", "file", 10, 10⟩])
      (storeOf [⟨"a", "a", "file", 10, 10⟩]) "a" := by
  have hscan : "a" ∈ linearScanPaths defaultOptions ⟨1, 0, 0⟩
      (getVisibleContentRect ⟨1, 0, 0⟩ ⟨800, 600⟩) [⟨"a", "a", "file", 10, 10⟩] := by
    simp only [linearScanPaths, isItemVisible, expandRect, getVisibleContentRect,
      defaultOptions, List.filter, List.mem_map, List.mem_filter]
    norm_num
  exact ⟨hscan,
    c1_amended defaultOptions ⟨1, 0, 0⟩ ⟨800, 600⟩ [⟨"a", "a", "file", 10, 10⟩] "a"
      (by norm_num) (by norm_num [defaultOptions]) (by norm_num [defaultOptions])
      (by norm_num [defaultOptions]) (by norm_num [defaultOptions]) (by norm_num)
      (by norm_num) hscan⟩

/-- C9 (counterexample): constructing with a missing container does *not*
throw — `constructEngine false` returns normally (`Except.ok`), and the
returned engine has its state containers already allocated while
`initialize()` was skipped.  The claimed synchronous `ConfigurationError`
and the absence of partial initialization both fail. -/
theorem c9_counterexample :
    ∃ e, constructEngine false = Except.ok e ∧
      e.stateAllocated = true ∧ e.initialized = false :=
  ⟨_, rfl, rfl, rfl⟩

/-- C9 (amended): when the container is missing the constructor does not
throw: it applies the options, allocates the state maps and spatial index,
logs an error, and skips `initialize()`, so the engine is left with
`initialized = false`, no observers attached and no pools created; with a
container present it initializes fully and logs nothing. -/
theorem c9_amended :
    constructEngine false = Except.ok ⟨true, true, false, false, false, false, true⟩ ∧
    constructEngine true = Except.ok ⟨true, true, true, true, true, true, false⟩ :=
  ⟨rfl, rfl⟩

/-- C7: a `scheduleRender()` issued from inside the running render pass is
dropped, not re-scheduled.  At the start of the animation-frame callback
the pending flag is still `true` (it is cleared only *after* `render()`
returns), so the in-pass call fails its guard and registers nothing: the
final state has no queued callback (`rafQueued = 0`), a cleared pending
flag, and only the one completed pass.  The claim instead requires a new
tick to be scheduled. -/
theorem c7_in_pass_reschedule_dropped :
    runTickWithReschedule ⟨true, true, false, 1, 0⟩ = ⟨false, true, false, 0, 1⟩ ∧
    (runTickWithReschedule ⟨true, true, false, 1, 0⟩).rafQueued = 0 := by
  exact ⟨rfl, rfl⟩

/-- C10: passing `0` as the `scale` argument of `setItems` or
`focusOnItem` behaves exactly like omitting the argument — the current
transform scale is kept — because the value is taken through the falsy-or
fallback `scale || this.transform.scale`. -/
theorem c10_zero_scale_keeps_current (opts : Options) (vp : Viewport)
    (st : EngineState) (items : List Item) (p : String) :
    setItems opts st items (some 0) = setItems opts st items none ∧
    (setItems opts st items (some 0)).transform.scale = st.transform.scale ∧
    focusOnItem opts vp st p (some 0) = focusOnItem opts vp st p none ∧
    (focusOnItem opts vp st p (some 0)).transform.scale = st.transform.scale := by
  refine ⟨?_, ?_, ?_, ?_⟩
  · simp [setItems, jsOrScale]
  · simp [setItems, jsOrScale]
  · cases h : st.itemData p <;> simp [focusOnItem, jsOrScale, h, setTransform]
  · cases h : st.itemData p <;> simp [focusOnItem, jsOrScale, h, setTransform]

/-- C2: a recycled handle still fires the callbacks of its previous item.
An element is bound to item `dir/a` (binding its click, double-click and
context-menu listeners), released through the pool — whose reset function
returns a listener-free clone that `release` *discards*, pushing the
original element, listeners and `data-has-listeners` flag intact — then
reused for item `dir/b`.  Because the flag is still set, `updateElement`
binds no new listeners: every bound listener still captures `dir/a`, so a
click on the handle showing `dir/b` dispatches an event carrying `dir/a`. -/
theorem c2_recycled_element_fires_previous_item :
    (recycledElementAfterRebind defaultOptions ⟨1, 0, 0⟩ ⟨800, 600⟩
      ⟨"dir/a", "a", "file", 0, 0⟩ ⟨"dir/b", "b", "file", 50, 0⟩).clickListeners =
        ["dir/a"] ∧
    (recycledElementAfterRebind defaultOptions ⟨1, 0, 0⟩ ⟨800, 600⟩
      ⟨"dir/a", "a", "file", 0, 0⟩ ⟨"dir/b", "b", "file", 50, 0⟩).dblclickListeners =
        ["dir/a"] ∧
    (recycledElementAfterRebind defaultOptions ⟨1, 0, 0⟩ ⟨800, 600⟩
      ⟨"dir/a", "a", "file", 0, 0⟩ ⟨"dir/b", "b", "file", 50, 0⟩).contextmenuListeners =
        ["dir/a"] ∧
    (recycledElementAfterRebind defaultOptions ⟨1, 0, 0⟩ ⟨800, 600⟩
      ⟨"dir/a", "a", "file", 0, 0⟩ ⟨"dir/b", "b", "file", 50, 0⟩).dataPath =
        some "dir/b" ∧
    (recycledElementAfterRebind defaultOptions ⟨1, 0, 0⟩ ⟨800, 600⟩
      ⟨"dir/a", "a", "file", 0, 0⟩ ⟨"dir/b", "b", "file", 50, 0⟩).dataHasListeners =
        true := by
  refine ⟨rfl, rfl, rfl, rfl, rfl⟩

theorem scheduleRender_fixed {s : SchedState} (h : s.renderScheduled = true) :
    scheduleRender s = s := by
  simp [scheduleRender, h]

/-- C6: calling `scheduleRender()` N ≥ 1 times synchronously — starting
with no pass pending, no callback registered and the scheduler enabled —
registers exactly one animation-frame callback (calls after the first are
no-ops on the state), and firing that tick executes exactly one render
pass and leaves no callback registered. -/
theorem c6_single_flight (s : SchedState) (n : ℕ) (hn : 1 ≤ n)
    (h1 : s.renderScheduled = false) (h2 : s.enabled = true)
    (h3 : s.rafQueued = 0) (h4 : s.isRendering = false) :
    (scheduleRender^[n] s).rafQueued = 1 ∧
    (scheduleRender^[n] s).renderScheduled = true ∧
    (runTick (scheduleRender^[n] s)).rendersRun = s.rendersRun + 1 ∧
    (runTick (scheduleRender^[n] s)).rafQueued = 0 := by
  have hs1 : scheduleRender s =
      { s with renderScheduled := true, rafQueued := s.rafQueued + 1 } := by
    simp [scheduleRender, h1, h2]
  have key : ∀ m, scheduleRender^[m] (scheduleRender s) = scheduleRender s := by
    intro m
    induction m with
    | zero => rfl
    | succ m ih =>
      rw [Function.iterate_succ_apply, scheduleRender_fixed (by rw [hs1])]
      exact ih
  obtain ⟨m, rfl⟩ : ∃ m, n = m + 1 := ⟨n - 1, by omega⟩
  rw [Function.iterate_succ_apply, key m, hs1]
  refine ⟨by simp [h3], rfl, ?_, ?_⟩ <;>
    simp [runTick, render, h3, h2, h4]

/-- C6 (witness): three synchronous `scheduleRender()` calls from the
initial scheduler state register one callback and produce one pass. -/
theorem c6_single_flight_witness :
    (scheduleRender^[3] ⟨false, true, false, 0, 0⟩).rafQueued = 1 ∧
    (scheduleRender^[3] ⟨false, true, false, 0, 0⟩).renderScheduled = true ∧
    (runTick (scheduleRender^[3] ⟨false, true, false, 0, 0⟩)).rendersRun = 0 + 1 ∧
    (runTick (scheduleRender^[3] ⟨false, true, false, 0, 0⟩)).rafQueued = 0 :=
  c6_single_flight ⟨false, true, false, 0, 0⟩ 3 (by decide) rfl rfl rfl rfl

theorem natPoolStep_length_le {s : PoolSettings} {st : PoolState ℕ}
    (h : st.pool.length ≤ s.maxSize) (op : PoolOp) :
    (natPoolStep s st op).pool.length ≤ s.maxSize := by
  cases op with
  | get =>
    simp only [natPoolStep, poolGet]
    cases hg : st.pool.getLast? with
    | some x =>
      dsimp only
      rw [List.length_dropLast]
      omega
    | none =>
      have hnil : st.pool = [] := List.getLast?_eq_none_iff.mp hg
      dsimp only
      rw [List.length_append, List.length_map, List.length_range, hnil]
      simp only [List.length_nil]
      omega
  | release g =>
    simp only [natPoolStep, poolRelease]
    split
    · rw [List.length_append]
      simp only [List.length_cons, List.length_nil]
      omega
    · exact h
  | prewarm n =>
    simp only [natPoolStep, poolPrewarm]
    split
    · exact h
    · dsimp only
      rw [List.length_append, List.length_map, List.length_range]
      omega

theorem natPoolRun_length_le {s : PoolSettings} {st : PoolState ℕ}
    (h : st.pool.length ≤ s.maxSize) (ops : List PoolOp) :
    (natPoolRun s st ops).pool.length ≤ s.maxSize := by
  induction ops generalizing st with
  | nil => exact h
  | cons op ops ih => exact ih (natPoolStep_length_le h op)

theorem handleFresh_step {s : PoolSettings} {st : PoolState ℕ} {h : ℕ}
    (hf : HandleFresh h st) (op : PoolOp) (hop : ∀ g, op = .release g → g ≠ h) :
    HandleFresh h (natPoolStep s st op) := by
  obtain ⟨hmem, hlt⟩ := hf
  cases op with
  | get =>
    simp only [natPoolStep, poolGet, HandleFresh]
    cases hg : st.pool.getLast? with
    | some x =>
      exact ⟨fun hc => hmem (List.dropLast_subset _ hc), hlt⟩
    | none =>
      try dsimp only
      refine ⟨?_, by omega⟩
      intro hc
      rcases List.mem_append.mp hc with hc | hc
      · exact hmem hc
      · obtain ⟨i, _, rfl⟩ := List.mem_map.mp hc
        omega
  | release g =>
    have hg : g ≠ h := hop g rfl
    simp only [natPoolStep, poolRelease, HandleFresh]
    split
    · refine ⟨?_, hlt⟩
      intro hc
      rcases List.mem_append.mp hc with hc | hc
      · exact hmem hc
      · simp at hc
        exact hg hc.symm
    · exact ⟨hmem, hlt⟩
  | prewarm n =>
    simp only [natPoolStep, poolPrewarm, HandleFresh]
    split
    · exact ⟨hmem, hlt⟩
    · try dsimp only
      refine ⟨?_, by omega⟩
      intro hc
      rcases List.mem_append.mp hc with hc | hc
      · exact hmem hc
      · obtain ⟨i, _, rfl⟩ := List.mem_map.mp hc
        omega

theorem poolGet_result_ne {s : PoolSettings} {st : PoolState ℕ} {h : ℕ}
    (hf : HandleFresh h st) : (poolGet (fun i => i) s st).1 ≠ h := by
  obtain ⟨hmem, hlt⟩ := hf
  simp only [poolGet]
  split
  · next x hg =>
      have hx : x ∈ st.pool := List.mem_of_getLast?_eq_some hg
      intro hc
      exact hmem (hc ▸ hx)
  · dsimp only
    omega

theorem natPoolTrace_not_mem {s : PoolSettings} {st : PoolState ℕ} {h : ℕ}
    (ops : List PoolOp) (hf : HandleFresh h st) (hrel : h ∉ releasedHandles ops) :
    h ∉ natPoolTrace s st ops := by
  induction ops generalizing st with
  | nil => simp [natPoolTrace]
  | cons op ops ih =>
    have hop : ∀ g, op = .release g → g ≠ h := by
      rintro g rfl
      intro hc
      subst hc
      exact hrel (by simp [releasedHandles])
    have hrel2 : h ∉ releasedHandles ops := by
      intro hc
      apply hrel
      cases op <;> simp [releasedHandles, hc]
    cases op with
    | get =>
      simp only [natPoolTrace, List.mem_cons, not_or]
      exact ⟨fun hc => poolGet_result_ne hf hc.symm,
        ih (handleFresh_step hf _ hop) hrel2⟩
    | release g =>
      exact ih (handleFresh_step hf _ hop) hrel2
    | prewarm n =>
      exact ih (handleFresh_step hf _ hop) hrel2

theorem natPoolRun_fresh {s : PoolSettings} {st : PoolState ℕ} {h : ℕ}
    (ops : List PoolOp) (hf : HandleFresh h st) (hrel : h ∉ releasedHandles ops) :
    HandleFresh h (natPoolRun s st ops) := by
  induction ops generalizing st with
  | nil => exact hf
  | cons op ops ih =>
    have hop : ∀ g, op = .release g → g ≠ h := by
      rintro g rfl
      intro hc
      subst hc
      exact hrel (by simp [releasedHandles])
    have hrel2 : h ∉ releasedHandles ops := by
      intro hc
      apply hrel
      cases op <;> simp [releasedHandles, hc]
    exact ih (handleFresh_step hf _ hop) hrel2

/-- C4 (counterexample): pool construction does not clamp `initialSize`
to `maxSize` — a pool constructed with `initialSize 3, maxSize 2` starts
with three idle handles, exceeding its configured maximum. -/
theorem c4_counterexample :
    (⟨3, 2, 5⟩ : PoolSettings).maxSize <
      (mkPool (fun i : ℕ => i) ⟨3, 2, 5⟩).pool.length := by
  decide

/-- C4 (amended): provided the initial size is at most the configured
maximum, the idle count never exceeds the maximum along any sequence of
`get`/`release`/`prewarm` operations; and a handle released while the pool
is at (or above) the maximum is discarded — the release leaves the pool
unchanged, and as long as that handle is not released again, no subsequent
`get` ever returns it and it never re-enters the idle pool. -/
theorem c4_amended :
    (∀ (s : PoolSettings) (ops : List PoolOp), s.initialSize ≤ s.maxSize →
      (natPoolRun s (mkPool (fun i => i) s) ops).pool.length ≤ s.maxSize) ∧
    (∀ (s : PoolSettings) (st : PoolState ℕ) (h : ℕ) (ops : List PoolOp),
      HandleFresh h st → s.maxSize ≤ st.pool.length → h ∉ releasedHandles ops →
      poolRelease id s st h = st ∧
      h ∉ natPoolTrace s (poolRelease id s st h) ops ∧
      h ∉ (natPoolRun s (poolRelease id s st h) ops).pool) := by
  constructor
  · intro s ops hinit
    apply natPoolRun_length_le
    simpa [mkPool] using hinit
  · intro s st h ops hf hmax hrel
    have heq : poolRelease id s st h = st := by
      simp only [poolRelease]
      rw [if_neg (by omega)]
    refine ⟨heq, ?_, ?_⟩
    · rw [heq]
      exact natPoolTrace_not_mem ops hf hrel
    · rw [heq]
      exact (natPoolRun_fresh ops hf hrel).1

/-- C4 (witness): Scenario C — a pool with `maxSize 2` already holding two
idle handles discards a third released handle (identity 9, previously
created), which no later `get` returns; and from a legal construction the
idle bound holds under a burst of releases. -/
theorem c4_amended_witness :
    (natPoolRun ⟨1, 2, 5⟩ (mkPool (fun i => i) ⟨1, 2, 5⟩)
      [.release 5, .release 6, .release 7]).pool.length ≤
        (⟨1, 2, 5⟩ : PoolSettings).maxSize ∧
    (poolRelease id ⟨1, 2, 5⟩ ⟨[10, 11], 12⟩ 9 = ⟨[10, 11], 12⟩ ∧
      9 ∉ natPoolTrace ⟨1, 2, 5⟩ (poolRelease id ⟨1, 2, 5⟩ ⟨[10, 11], 12⟩ 9)
        [.get, .get, .get] ∧
      9 ∉ (natPoolRun ⟨1, 2, 5⟩ (poolRelease id ⟨1, 2, 5⟩ ⟨[10, 11], 12⟩ 9)
        [.get, .get, .get]).pool) :=
  ⟨c4_amended.1 ⟨1, 2, 5⟩ [.release 5, .release 6, .release 7] (by decide),
    c4_amended.2 ⟨1, 2, 5⟩ ⟨[10, 11], 12⟩ 9 [.get, .get, .get]
      ⟨by decide, by decide⟩ (by decide) (by decide)⟩

theorem lodScan_of_first {ts : List ℚ} {scale : ℚ} {i : ℕ} {t : ℚ}
    (hlt : ∀ j u, j < i → ts[j]? = some u → scale < u)
    (ht : ts[i]? = some t) (hge : t ≤ scale) :
    ∀ acc, lodScan ts scale acc = some (acc + i + 1) := by
  induction ts generalizing i with
  | nil => simp at ht
  | cons u ts ih =>
    intro acc
    cases i with
    | zero =>
      rw [List.getElem?_cons_zero] at ht
      obtain rfl : u = t := by injection ht
      rw [lodScan, if_pos hge]
    | succ j =>
      have hu : scale < u := hlt 0 u (Nat.succ_pos j) List.getElem?_cons_zero
      rw [lodScan, if_neg (not_le.mpr hu)]
      have harg : ∀ j2 u2, j2 < j → ts[j2]? = some u2 → scale < u2 := by
        intro j2 u2 hj2 hu2
        refine hlt (j2 + 1) u2 (by omega) ?_
        rwa [List.getElem?_cons_succ]
      have ht2 : ts[j]? = some t := by rwa [List.getElem?_cons_succ] at ht
      rw [ih harg ht2 (acc + 1)]
      congr 1
      omega

theorem lodScan_none {ts : List ℚ} {scale : ℚ} (h : ∀ t ∈ ts, scale < t) :
    ∀ acc, lodScan ts scale acc = none := by
  induction ts with
  | nil => intro acc; rfl
  | cons u ts ih =>
    intro acc
    rw [lodScan, if_neg (not_le.mpr (h u (by simp)))]
    exact ih (fun t ht => h t (List.mem_cons_of_mem _ ht)) (acc + 1)

/-- Dividing the threshold argument of a square-root comparison by a
positive scale is the same as scaling the squared distance:
`√d2 < t / s ↔ √(d2·s²) < t` for `s > 0`. -/
theorem sqrtLtB_div (d2 t s : ℚ) (hs : 0 < s) :
    sqrtLtB d2 (t / s) = sqrtLtB (d2 * s ^ 2) t := by
  simp only [sqrtLtB, div_pow]
  congr 1
  · exact decide_eq_decide.mpr (by rw [le_div_iff₀ hs]; simp)
  · exact decide_eq_decide.mpr (lt_div_iff₀ (by positivity))

theorem getDetailLevel_fallback (opts : Options) (tr : Transform) (vp : Viewport)
    (item : Item) (hne : opts.lodLevels ≠ 1) (hs : 0 < tr.scale)
    (hnone : lodScan opts.lodThresholds tr.scale 0 = none) :
    getDetailLevel opts tr vp item =
      specDistanceBandLevel (itemDistSq opts tr vp item) tr.scale
        opts.detailDistanceThreshold := by
  unfold getDetailLevel specDistanceBandLevel
  rw [if_neg hne, hnone]
  dsimp only
  rw [sqrtLtB_div _ _ _ hs, div_mul_eq_mul_div, sqrtLtB_div _ _ _ hs]

/-- C5 (counterexample): with the default thresholds [1.0, 0.5, 0.2] and
base distance threshold 300, at scale 0.1 (below every threshold, so the
distance fallback applies) an item whose center lies 100 content units
from the viewport center gets detail level 1 from the code — the code
compares the distance against `300 / 0.1 = 3000` — whereas the claim's
rule (distance *divided* by scale, i.e. 1000, against 300) yields level 3. -/
theorem c5_counterexample :
    lodScan defaultOptions.lodThresholds (1/10 : ℚ) 0 = none ∧
    getDetailLevel defaultOptions ⟨1/10, 0, 0⟩ ⟨800, 600⟩
      ⟨"x", "x", "file", 3850, 2940⟩ = 1 ∧
    claimDistanceBandLevel
      (itemDistSq defaultOptions ⟨1/10, 0, 0⟩ ⟨800, 600⟩
        ⟨"x", "x", "file", 3850, 2940⟩)
      (1/10) defaultOptions.detailDistanceThreshold = 3 := by
  have hd : itemDistSq defaultOptions ⟨1/10, 0, 0⟩ ⟨800, 600⟩
      ⟨"x", "x", "file", 3850, 2940⟩ = 10000 := by
    norm_num [itemDistSq, getVisibleContentRect, defaultOptions]
  have hscan : lodScan defaultOptions.lodThresholds (1/10 : ℚ) 0 = none := by
    norm_num [lodScan, defaultOptions]
  refine ⟨hscan, ?_, ?_⟩
  · unfold getDetailLevel
    rw [if_neg (by norm_num [defaultOptions]), hscan]
    dsimp only
    rw [hd]
    norm_num [sqrtLtB, defaultOptions]
  · rw [hd]
    norm_num [claimDistanceBandLevel, sqrtLtB, defaultOptions]

/-- C5 (amended): with LOD enabled, the detail level is the 1-based index
of the first entry of the descending `lodThresholds` list that the scale
meets or exceeds; when the scale is below every threshold, the level
falls back to the distance rule with the *threshold normalized by the
scale* — the Euclidean distance from item center to viewport center is
compared against `detailDistanceThreshold / scale` (equivalently,
distance × scale against the base): below it level 1, below twice it
level 2, otherwise level 3.  In particular, with thresholds
[1.0, 0.5, 0.2] and scale 0.6 every item gets level 2. -/
theorem c5_amended :
    (∀ (opts : Options) (tr : Transform) (vp : Viewport) (item : Item)
      (i : ℕ) (t : ℚ), opts.lodLevels ≠ 1 →
      (∀ j u, j < i → opts.lodThresholds[j]? = some u → tr.scale < u) →
      opts.lodThresholds[i]? = some t → t ≤ tr.scale →
      getDetailLevel opts tr vp item = i + 1) ∧
    (∀ (opts : Options) (tr : Transform) (vp : Viewport) (item : Item),
      opts.lodLevels ≠ 1 → 0 < tr.scale →
      (∀ t ∈ opts.lodThresholds, tr.scale < t) →
      getDetailLevel opts tr vp item =
        specDistanceBandLevel (itemDistSq opts tr vp item) tr.scale
          opts.detailDistanceThreshold) ∧
    (∀ (tr : Transform) (vp : Viewport) (item : Item), tr.scale = 3/5 →
      getDetailLevel defaultOptions tr vp item = 2) := by
  refine ⟨?_, ?_, ?_⟩
  · intro opts tr vp item i t hne hlt ht hge
    unfold getDetailLevel
    rw [if_neg hne, lodScan_of_first hlt ht hge 0]
    dsimp only
    omega
  · intro opts tr vp item hne hs hall
    exact getDetailLevel_fallback opts tr vp item hne hs (lodScan_none hall 0)
  · intro tr vp item hsc
    unfold getDetailLevel
    rw [if_neg (by norm_num [defaultOptions])]
    have hlt : ∀ j u, j < 1 → defaultOptions.lodThresholds[j]? = some u →
        tr.scale < u := by
      intro j u hj hu
      interval_cases j
      simp [defaultOptions] at hu
      rw [hsc, ← hu]
      norm_num
    have ht : defaultOptions.lodThresholds[1]? = some (1/2 : ℚ) := by
      simp [defaultOptions]
    have hge : (1/2 : ℚ) ≤ tr.scale := by
      rw [hsc]
      norm_num
    rw [lodScan_of_first hlt ht hge 0]

/-- C5 (witness): at scale 0.6 with the default thresholds, an arbitrary
item far from the viewport center still gets detail level 2. -/
theorem c5_amended_witness :
    getDetailLevel defaultOptions ⟨3/5, 7, -4⟩ ⟨800, 600⟩
      ⟨"w", "w", "file", 12345, -999⟩ = 2 :=
  c5_amended.2.2 ⟨3/5, 7, -4⟩ ⟨800, 600⟩ ⟨"w", "w", "file", 12345, -999⟩ rfl

theorem foldl_addToBin_apply_not_mem (path : String) {L : List (ℤ × ℤ)}
    (B : ℤ × ℤ → Option (Finset String)) {k : ℤ × ℤ} (hk : k ∉ L) :
    L.foldl (addToBin path) B k = B k := by
  induction L generalizing B with
  | nil => rfl
  | cons a L ih =>
    rw [List.foldl_cons, ih _ (fun hc => hk (List.mem_cons_of_mem _ hc))]
    have hka : k ≠ a := fun hc => hk (hc ▸ List.mem_cons_self a L)
    simp [addToBin, hka]

theorem foldl_addToBin_apply_mem (path : String) {L : List (ℤ × ℤ)}
    (B : ℤ × ℤ → Option (Finset String)) {k : ℤ × ℤ} (hnd : L.Nodup) (hk : k ∈ L) :
    L.foldl (addToBin path) B k = some (insert path ((B k).getD ∅)) := by
  induction L generalizing B with
  | nil => cases hk
  | cons a L ih =>
    rw [List.foldl_cons]
    rcases List.mem_cons.mp hk with rfl | hk2
    · have haL : k ∉ L := (List.nodup_cons.mp hnd).1
      rw [foldl_addToBin_apply_not_mem path _ haL]
      simp [addToBin]
    · have hka : k ≠ a := fun hc => (List.nodup_cons.mp hnd).1 (hc ▸ hk2)
      rw [ih _ (List.nodup_cons.mp hnd).2 hk2]
      simp [addToBin, hka]

theorem foldl_removeFromBin_apply_not_mem (path : String) {L : List (ℤ × ℤ)}
    (B : ℤ × ℤ → Option (Finset String)) {k : ℤ × ℤ} (hk : k ∉ L) :
    L.foldl (removeFromBin path) B k = B k := by
  induction L generalizing B with
  | nil => rfl
  | cons a L ih =>
    rw [List.foldl_cons, ih _ (fun hc => hk (List.mem_cons_of_mem _ hc))]
    have hka : k ≠ a := fun hc => hk (hc ▸ List.mem_cons_self a L)
    rcases hBa : B a with _ | s <;> simp only [removeFromBin, hBa]
    split <;> simp [hka]

theorem foldl_removeFromBin_apply_mem (path : String) {L : List (ℤ × ℤ)}
    (B : ℤ × ℤ → Option (Finset String)) {k : ℤ × ℤ} (hnd : L.Nodup) (hk : k ∈ L) :
    L.foldl (removeFromBin path) B k =
      match B k with
      | none => none
      | some s => if s.erase path = ∅ then none else some (s.erase path) := by
  induction L generalizing B with
  | nil => cases hk
  | cons a L ih =>
    rw [List.foldl_cons]
    rcases List.mem_cons.mp hk with rfl | hk2
    · have haL : k ∉ L := (List.nodup_cons.mp hnd).1
      rw [foldl_removeFromBin_apply_not_mem path _ haL]
      rcases hBk : B k with _ | s <;> simp only [removeFromBin, hBk]
      split <;> simp
    · have hka : k ≠ a := fun hc => (List.nodup_cons.mp hnd).1 (hc ▸ hk2)
      rw [ih _ (List.nodup_cons.mp hnd).2 hk2]
      have heq : removeFromBin path B a k = B k := by
        rcases hBa : B a with _ | s <;> simp only [removeFromBin, hBa]
        split <;> simp [hka]
      rw [heq]

/-- Inserting a path into its covered bins and then removing it over the
same key list restores the bin map exactly, provided the path was in no
bin beforehand and no bin was empty (bins created by the insertion become
empty again and are deleted; pre-existing bins shrink back to their old
non-empty contents and are kept). -/
theorem bins_roundtrip (path : String) (L : List (ℤ × ℤ))
    (B : ℤ × ℤ → Option (Finset String)) (hnd : L.Nodup)
    (hfree : ∀ k s, B k = some s → path ∉ s)
    (hne : ∀ k s, B k = some s → s.Nonempty) :
    L.foldl (removeFromBin path) (L.foldl (addToBin path) B) = B := by
  funext k
  by_cases hk : k ∈ L
  · rw [foldl_removeFromBin_apply_mem path _ hnd hk,
      foldl_addToBin_apply_mem path B hnd hk]
    rcases hBk : B k with _ | s
    · simp [Finset.erase_insert (Finset.not_mem_empty path)]
    · have hps : path ∉ s := hfree k s hBk
      have hsne : s.Nonempty := hne k s hBk
      simp only [Option.getD_some, Finset.erase_insert hps]
      rw [if_neg (Finset.nonempty_iff_ne_empty.mp hsne)]
  · rw [foldl_removeFromBin_apply_not_mem path _ hk,
      foldl_addToBin_apply_not_mem path B hk]

/-- C8: for an item whose path is fresh — absent from the store, the
index's recorded-bins map, every bin, and the visible set, with the index
containing no empty bin (the code's own invariant: empty bins are always
deleted) — `addItem(x)` followed by `removeItem(x.path)` restores the
item store, the spatial index (bins and recorded bins, with bins emptied
by the removal deleted), the visible set, and the transform exactly. -/
theorem c8_round_trip (opts : Options) (vp : Viewport) (st : EngineState) (x : Item)
    (h1 : st.itemData x.path = none)
    (h2 : st.index.items x.path = none)
    (h3 : ∀ k s, st.index.bins k = some s → x.path ∉ s)
    (h4 : ∀ k s, st.index.bins k = some s → s.Nonempty)
    (h5 : st.visibleItems x.path = none) :
    (removeItem (addItem opts vp st x) x.path).itemData = st.itemData ∧
    (removeItem (addItem opts vp st x) x.path).index.bins = st.index.bins ∧
    (removeItem (addItem opts vp st x) x.path).index.items = st.index.items ∧
    (removeItem (addItem opts vp st x) x.path).visibleItems = st.visibleItems ∧
    (removeItem (addItem opts vp st x) x.path).transform = st.transform := by
  have hbins := bins_roundtrip x.path (binKeysFor opts x) st.index.bins
    (binKeysFor_nodup opts x) h3 h4
  have hdata : (fun p => if p = x.path then none
      else if p = x.path then some x else st.itemData p) = st.itemData := by
    funext p
    by_cases hp : p = x.path
    · rw [if_pos hp, hp, h1]
    · rw [if_neg hp, if_neg hp]
  have hitems : (fun p => if p = x.path then none
      else if p = x.path then some (binKeysFor opts x) else st.index.items p) =
        st.index.items := by
    funext p
    by_cases hp : p = x.path
    · rw [if_pos hp, hp, h2]
    · rw [if_neg hp, if_neg hp]
  by_cases hv : isItemVisible opts st.transform (getVisibleContentRect st.transform vp) x = true
  · have hadd : addItem opts vp st x =
        ⟨fun p => if p = x.path then some x else st.itemData p,
          ⟨(binKeysFor opts x).foldl (addToBin x.path) st.index.bins,
            fun p => if p = x.path then some (binKeysFor opts x) else st.index.items p⟩,
          fun p => if p = x.path then some st.nextElementId else st.visibleItems p,
          st.nextElementId + 1, st.transform⟩ := by
      simp only [addItem, updateItemInSpatialIndex, renderItem, h2, if_pos hv]
    rw [hadd]
    simp only [removeItem, eq_self_iff_true, if_true]
    refine ⟨hdata, hbins, hitems, ?_, trivial⟩
    funext p
    by_cases hp : p = x.path
    · rw [if_pos hp, hp, h5]
    · rw [if_neg hp, if_neg hp]
  · have hadd : addItem opts vp st x =
        ⟨fun p => if p = x.path then some x else st.itemData p,
          ⟨(binKeysFor opts x).foldl (addToBin x.path) st.index.bins,
            fun p => if p = x.path then some (binKeysFor opts x) else st.index.items p⟩,
          st.visibleItems, st.nextElementId, st.transform⟩ := by
      simp only [addItem, updateItemInSpatialIndex, renderItem, h2, if_neg hv]
    rw [hadd]
    simp only [removeItem, eq_self_iff_true, if_true, h5]
    exact ⟨hdata, hbins, hitems, trivial, trivial⟩

/-- C8 (witness): from the freshly constructed engine, adding an item at
(10,10) and removing it again restores the empty store, index and visible
set. -/
theorem c8_round_trip_witness :
    (removeItem (addItem defaultOptions ⟨800, 600⟩ emptyEngineState
      ⟨"a", "a", "file", 10, 10⟩) "a").itemData = emptyEngineState.itemData ∧
    (removeItem (addItem defaultOptions ⟨800, 600⟩ emptyEngineState
      ⟨"a", "a", "file", 10, 10⟩) "a").index.bins = emptyEngineState.index.bins ∧
    (removeItem (addItem defaultOptions ⟨800, 600⟩ emptyEngineState
      ⟨"a", "a", "file", 10, 10⟩) "a").index.items = emptyEngineState.index.items ∧
    (removeItem (addItem defaultOptions ⟨800, 600⟩ emptyEngineState
      ⟨"a", "a", "file", 10, 10⟩) "a").visibleItems = emptyEngineState.visibleItems ∧
    (removeItem (addItem defaultOptions ⟨800, 600⟩ emptyEngineState
      ⟨"a", "a", "file", 10, 10⟩) "a").transform = emptyEngineState.transform :=
  c8_round_trip defaultOptions ⟨800, 600⟩ emptyEngineState ⟨"a", "a", "file", 10, 10⟩
    rfl rfl (fun _ _ h => Option.noConfusion h) (fun _ _ h => Option.noConfusion h) rfl

end SpatialExplorer
